import Mathlib

/-!
Verification development for the lxc container statistics program
(src/lxc-stat.py). The Python program is shallowly embedded: file reads
become lookups in an explicit filesystem model, the per-container metric
cache becomes explicit optional fields, exceptions become `Except`, and
Python's stable `sorted` becomes a stable insertion sort with a fallible
comparison.
-/

namespace LxcStat

/-- Runtime failures of the program: filesystem or parse errors from reading
a cgroup file, Python's ZeroDivisionError, and Python's TypeError (raised
when `sorted` compares unorderable keys). -/
inductive Err where
  | fsError
  | zeroDivision
  | typeError
deriving DecidableEq

/-- Model of the cgroup pseudo-filesystem under `/sys/fs/cgroup`. Each field
maps a container name to the integer content of the corresponding controller
file (`some n` = file readable with integer content `n`; `none` = file
missing, unreadable or malformed, which makes the Python read raise). -/
structure CgroupFS where
  memoryBytes : String → Option ℤ
  cpuNanoseconds : String → Option ℤ
  pidsCurrent : String → Option ℤ

/-- Round a rational to the nearest integer, ties to even: the rounding mode
of Python 3's builtin `round`. -/
def roundHalfEven (x : ℚ) : ℤ :=
  let n := ⌊x⌋
  let frac := x - n
  if frac < 1 / 2 then n
  else if 1 / 2 < frac then n + 1
  else if n % 2 = 0 then n else n + 1

/-- Python's `round(x, 2)`, in exact rational arithmetic (the binary float
representation is abstracted away). -/
def pyRound2 (x : ℚ) : ℚ :=
  (roundHalfEven (x * 100) : ℚ) / 100

/-- A `Container` object: its name and the `_cache` dict, one explicit
optional field per cache key used by the program
(`memory`, `cpu`, `percent`, `procs`). -/
structure Container where
  name : String
  cacheMemory : Option ℚ
  cacheCpu : Option ℚ
  cachePercent : Option ℚ
  cacheProcs : Option ℤ
deriving DecidableEq

/-- A freshly constructed `Container(name)`: empty cache. -/
def Container.mk0 (name : String) : Container :=
  ⟨name, none, none, none, none⟩

/-- The `get_memory` property: reads `memory/lxc/<name>/memory.usage_in_bytes`
on a cache miss, converts bytes to MB (`/ 1024 / 1024`), rounds to 2 decimals
and caches the result. Returns the value together with the updated object. -/
def Container.get_memory (fs : CgroupFS) (c : Container) : Except Err (ℚ × Container) :=
  match c.cacheMemory with
  | some v => .ok (v, c)
  | none =>
    match fs.memoryBytes c.name with
    | none => .error .fsError
    | some b =>
      let v := pyRound2 ((b : ℚ) / 1024 / 1024)
      .ok (v, { c with cacheMemory := some v })

/-- The `get_cpu` property: reads `cpu,cpuacct/lxc/<name>/cpuacct.usage` on a
cache miss, converts nanoseconds to seconds (`/ 10 ** 9`), rounds to 2
decimals and caches the result. -/
def Container.get_cpu (fs : CgroupFS) (c : Container) : Except Err (ℚ × Container) :=
  match c.cacheCpu with
  | some v => .ok (v, c)
  | none =>
    match fs.cpuNanoseconds c.name with
    | none => .error .fsError
    | some n =>
      let v := pyRound2 ((n : ℚ) / 10 ^ 9)
      .ok (v, { c with cacheCpu := some v })

/-- The `get_procs` property: reads `pids/lxc/<name>/pids.current` on a cache
miss and caches the integer (no rounding). -/
def Container.get_procs (fs : CgroupFS) (c : Container) : Except Err (ℤ × Container) :=
  match c.cacheProcs with
  | some v => .ok (v, c)
  | none =>
    match fs.pidsCurrent c.name with
    | none => .error .fsError
    | some n => .ok (n, { c with cacheProcs := some n })

/-- The `get_percent(total=0.0)` method: on a cache miss evaluates
`round(self.get_cpu * 100 / total, 2)` — `get_cpu` first, then the division,
which raises `ZeroDivisionError` when `total == 0` — and stores the result
under the cache key `percent`, which does not mention `total`. On a cache hit
the stored value is returned no matter what `total` is passed. -/
def Container.get_percent (fs : CgroupFS) (c : Container) (total : ℚ) :
    Except Err (ℚ × Container) :=
  match c.cachePercent with
  | some v => .ok (v, c)
  | none =>
    match c.get_cpu fs with
    | .error e => .error e
    | .ok (cpuv, c1) =>
      if total = 0 then .error .zeroDivision
      else
        let v := pyRound2 (cpuv * 100 / total)
        .ok (v, { c1 with cachePercent := some v })

/-- The `Containers` collection: the list built in `Containers.__init__`. -/
structure Containers where
  containers : List Container

/-- `Containers.__init__`: `os.listdir` of the discovery path
(`devices/lxc`) — `none` models the listing itself failing (path missing or
unreadable), in which case the constructor raises. Entries are filtered by
`os.path.isdir` and one fresh `Container` is built per remaining name, in
listing order. -/
def Containers.init (listing : Option (List String)) (isDir : String → Bool) :
    Except Err Containers :=
  match listing with
  | none => .error .fsError
  | some entries => .ok ⟨(entries.filter isDir).map Container.mk0⟩

/-- The evaluation of `sum(map(lambda c: c.get_cpu, containers))`: fetches
each container's cpu value left to right (populating caches) and sums. -/
def cpuFold (fs : CgroupFS) : List Container → Except Err (ℚ × List Container)
  | [] => .ok (0, [])
  | c :: cs =>
    match c.get_cpu fs with
    | .error e => .error e
    | .ok (v, c1) =>
      match cpuFold fs cs with
      | .error e => .error e
      | .ok (s, cs1) => .ok (v + s, c1 :: cs1)

/-- `Containers.cpu_usage`: sum of all containers' cpu usage. -/
def Containers.cpu_usage (fs : CgroupFS) (cs : Containers) : Except Err (ℚ × Containers) :=
  (cpuFold fs cs.containers).map fun p => (p.1, ⟨p.2⟩)

/-- A sort key as produced by `sort_by(method)` applied to a container.
`getattr(c, 'get_name')` yields a string, `get_cpu`/`get_memory` yield
floats, `get_procs` yields an int (these four are properties, so `getattr`
evaluates them), but `get_percent` is a plain method, so
`getattr(c, 'get_percent')` yields the bound method object itself. -/
inductive SortKey where
  | str (s : String)
  | num (q : ℚ)
  | int (n : ℤ)
  | boundMethod (owner : String)
deriving DecidableEq

/-- The runtime type tag of a sort key, governing comparability: strings
compare with strings, numbers (int or float) with numbers, and a bound
method compares with nothing. -/
def tagOf : SortKey → ℕ
  | .str _ => 0
  | .num _ => 1
  | .int _ => 1
  | .boundMethod _ => 3

/-- The key function `sort_by(method)` of `print_stats`, applied to one
container: for the five recognized method names it evaluates
`getattr(c, 'get_' + method)`; any other name falls back to `c.get_cpu`.
Property accesses may read files and update the cache, so the updated
container is returned with the key. -/
def sort_by (fs : CgroupFS) (method : String) (c : Container) :
    Except Err (SortKey × Container) :=
  if method = "name" ∨ method = "cpu" ∨ method = "memory" ∨
      method = "percent" ∨ method = "procs" then
    if method = "name" then .ok (.str c.name, c)
    else if method = "cpu" then (c.get_cpu fs).map fun p => (.num p.1, p.2)
    else if method = "memory" then (c.get_memory fs).map fun p => (.num p.1, p.2)
    else if method = "percent" then .ok (.boundMethod c.name, c)
    else (c.get_procs fs).map fun p => (.int p.1, p.2)
  else
    (c.get_cpu fs).map fun p => (.num p.1, p.2)

/-- Python's `<` on sort keys: strings compare lexicographically by code
point, numbers (int or float) compare numerically, and comparing a bound
method raises TypeError. -/
def pyLt : SortKey → SortKey → Except Err Bool
  | .str a, .str b => .ok (decide (a < b))
  | .num a, .num b => .ok (decide (a < b))
  | .int a, .int b => .ok (decide (a < b))
  | .num a, .int b => .ok (decide (a < (b : ℚ)))
  | .int a, .num b => .ok (decide ((a : ℚ) < b))
  | _, _ => .error .typeError

/-- Insert `x` into an already sorted list, after every element strictly
below it (stable ascending insertion), with a comparison that may raise. -/
def insertE {α : Type} (lt : α → α → Except Err Bool) (x : α) :
    List α → Except Err (List α)
  | [] => .ok [x]
  | y :: ys =>
    match lt y x with
    | .error e => .error e
    | .ok true => (insertE lt x ys).map fun r => y :: r
    | .ok false => .ok (x :: y :: ys)

/-- Stable ascending insertion sort with a fallible comparison: the model of
Python's stable `sorted` (Timsort performs the same stable permutation and
raises whenever two keys are unorderable). -/
def sortE {α : Type} (lt : α → α → Except Err Bool) : List α → Except Err (List α)
  | [] => .ok []
  | x :: xs =>
    match sortE lt xs with
    | .error e => .error e
    | .ok r => insertE lt x r

/-- `sorted(l, reverse=rev)`: CPython implements `reverse=True` by reversing
the decorated list, sorting ascending (stably), and reversing again. -/
def sortedPy {α : Type} (lt : α → α → Except Err Bool) (l : List α) (rev : Bool) :
    Except Err (List α) :=
  if rev then (sortE lt l.reverse).map List.reverse
  else sortE lt l

/-- `sorted(l, key=keyf)` computes the key of every element first, in list
order (each key computation may read files and update that container). -/
def mapKeys (keyf : Container → Except Err (SortKey × Container)) :
    List Container → Except Err (List (SortKey × Container))
  | [] => .ok []
  | c :: cs =>
    match keyf c with
    | .error e => .error e
    | .ok p =>
      match mapKeys keyf cs with
      | .error e => .error e
      | .ok r => .ok (p :: r)

/-- One printed data row of the report: the observable fields, format widths
abstracted away. -/
structure Row where
  name : String
  memory : ℚ
  cpu : ℚ
  percent : ℚ
  procs : ℤ
deriving DecidableEq

/-- Producing one row: Python evaluates `container.get_percent(cpu_usage)`
first (the format argument), then the template accesses `get_name`,
`get_memory`, `get_cpu`, `get_procs` in template order. -/
def formatRow (fs : CgroupFS) (total : ℚ) (c : Container) : Except Err (Row × Container) :=
  match c.get_percent fs total with
  | .error e => .error e
  | .ok (p, c1) =>
    match c1.get_memory fs with
    | .error e => .error e
    | .ok (m, c2) =>
      match c2.get_cpu fs with
      | .error e => .error e
      | .ok (u, c3) =>
        match c3.get_procs fs with
        | .error e => .error e
        | .ok (pr, c4) =>
          .ok ({ name := c1.name, memory := m, cpu := u, percent := p, procs := pr }, c4)

/-- The printing loop of `print_stats`: one row per container in sorted
order; the first raised error aborts the report. -/
def rowsOf (fs : CgroupFS) (total : ℚ) : List Container → Except Err (List Row)
  | [] => .ok []
  | c :: cs =>
    match formatRow fs total c with
    | .error e => .error e
    | .ok (r, _) =>
      match rowsOf fs total cs with
      | .error e => .error e
      | .ok rest => .ok (r :: rest)

/-- `Containers.print_stats(args)` with `sort = args.sort`: computes the cpu
total, sorts the containers with `key=sort_by(sort)` and
`reverse=(sort != 'name')`, and emits one row per container. The returned
list holds the data rows (the constant header lines are not modelled). -/
def Containers.print_stats (fs : CgroupFS) (cs : Containers) (sort : String) :
    Except Err (List Row) :=
  match cs.cpu_usage fs with
  | .error e => .error e
  | .ok (total, cs1) =>
    match mapKeys (sort_by fs sort) cs1.containers with
    | .error e => .error e
    | .ok decorated =>
      match sortedPy (fun a b => pyLt a.1 b.1) decorated (sort != "name") with
      | .error e => .error e
      | .ok sortedL => rowsOf fs total (sortedL.map Prod.snd)

/-! Concrete cgroup filesystems used to instantiate the theorems: `fsAB`
realizes the worked example of the spec (container a: 2 MB memory, 2.00 s
cpu, 7 processes; container b: 4 MB, 8.00 s, 9 processes), `fsAB2` is the
same host later with every file changed, and `fsZero` has every
`cpuacct.usage` file at 0. -/

/-- Filesystem of the spec's worked example. -/
def fsAB : CgroupFS :=
  ⟨fun n => if n = "a" then some 2097152 else some 4194304,
   fun n => if n = "a" then some 2000000000 else some 8000000000,
   fun n => if n = "a" then some 7 else some 9⟩

/-- The same host at a later time: every file content has changed. -/
def fsAB2 : CgroupFS :=
  ⟨fun _ => some 7340032, fun _ => some 9000000000, fun _ => some 3⟩

/-- A host on which every container's cpuacct.usage file reads 0. -/
def fsZero : CgroupFS :=
  ⟨fun _ => some 2097152, fun _ => some 0, fun _ => some 5⟩

/-! General lemmas about the cache behaviour of the four accessors. -/

theorem get_memory_hit (fs : CgroupFS) (c : Container) (v : ℚ)
    (h : c.cacheMemory = some v) : c.get_memory fs = .ok (v, c) := by
  simp only [Container.get_memory, h]

theorem get_cpu_hit (fs : CgroupFS) (c : Container) (v : ℚ)
    (h : c.cacheCpu = some v) : c.get_cpu fs = .ok (v, c) := by
  simp only [Container.get_cpu, h]

theorem get_procs_hit (fs : CgroupFS) (c : Container) (v : ℤ)
    (h : c.cacheProcs = some v) : c.get_procs fs = .ok (v, c) := by
  simp only [Container.get_procs, h]

theorem get_percent_hit (fs : CgroupFS) (c : Container) (v : ℚ) (total : ℚ)
    (h : c.cachePercent = some v) : c.get_percent fs total = .ok (v, c) := by
  simp only [Container.get_percent, h]

theorem get_memory_miss (fs : CgroupFS) (c : Container) (b : ℤ)
    (hc : c.cacheMemory = none) (hf : fs.memoryBytes c.name = some b) :
    c.get_memory fs = .ok (pyRound2 ((b : ℚ) / 1024 / 1024),
      { c with cacheMemory := some (pyRound2 ((b : ℚ) / 1024 / 1024)) }) := by
  simp only [Container.get_memory, hc, hf]

theorem get_cpu_miss (fs : CgroupFS) (c : Container) (n : ℤ)
    (hc : c.cacheCpu = none) (hf : fs.cpuNanoseconds c.name = some n) :
    c.get_cpu fs = .ok (pyRound2 ((n : ℚ) / 10 ^ 9),
      { c with cacheCpu := some (pyRound2 ((n : ℚ) / 10 ^ 9)) }) := by
  simp only [Container.get_cpu, hc, hf]

theorem get_procs_miss (fs : CgroupFS) (c : Container) (n : ℤ)
    (hc : c.cacheProcs = none) (hf : fs.pidsCurrent c.name = some n) :
    c.get_procs fs = .ok (n, { c with cacheProcs := some n }) := by
  simp only [Container.get_procs, hc, hf]

theorem get_percent_miss (fs : CgroupFS) (c c1 : Container) (v total : ℚ)
    (hp : c.cachePercent = none) (hcpu : c.get_cpu fs = .ok (v, c1)) (ht : total ≠ 0) :
    c.get_percent fs total = .ok (pyRound2 (v * 100 / total),
      { c1 with cachePercent := some (pyRound2 (v * 100 / total)) }) := by
  simp only [Container.get_percent, hp, hcpu, if_neg ht]

theorem get_percent_zero (fs : CgroupFS) (c c1 : Container) (v : ℚ)
    (hp : c.cachePercent = none) (hcpu : c.get_cpu fs = .ok (v, c1)) :
    c.get_percent fs 0 = .error .zeroDivision := by
  simp [Container.get_percent, hp, hcpu]

/-- A successful `get_memory` leaves the value in the cache. -/
theorem get_memory_ok_cache (fs : CgroupFS) (c c1 : Container) (v : ℚ)
    (h : c.get_memory fs = .ok (v, c1)) : c1.cacheMemory = some v := by
  unfold Container.get_memory at h
  cases hm : c.cacheMemory with
  | some w =>
    rw [hm] at h
    obtain ⟨rfl, rfl⟩ : w = v ∧ c = c1 := by
      constructor <;> cases h <;> rfl
    exact hm
  | none =>
    rw [hm] at h
    cases hf : fs.memoryBytes c.name with
    | none => rw [hf] at h; cases h
    | some b =>
      rw [hf] at h
      cases h
      rfl

theorem get_cpu_ok_cache (fs : CgroupFS) (c c1 : Container) (v : ℚ)
    (h : c.get_cpu fs = .ok (v, c1)) : c1.cacheCpu = some v := by
  unfold Container.get_cpu at h
  cases hm : c.cacheCpu with
  | some w =>
    rw [hm] at h
    obtain ⟨rfl, rfl⟩ : w = v ∧ c = c1 := by
      constructor <;> cases h <;> rfl
    exact hm
  | none =>
    rw [hm] at h
    cases hf : fs.cpuNanoseconds c.name with
    | none => rw [hf] at h; cases h
    | some n =>
      rw [hf] at h
      cases h
      rfl

theorem get_procs_ok_cache (fs : CgroupFS) (c c1 : Container) (v : ℤ)
    (h : c.get_procs fs = .ok (v, c1)) : c1.cacheProcs = some v := by
  unfold Container.get_procs at h
  cases hm : c.cacheProcs with
  | some w =>
    rw [hm] at h
    obtain ⟨rfl, rfl⟩ : w = v ∧ c = c1 := by
      constructor <;> cases h <;> rfl
    exact hm
  | none =>
    rw [hm] at h
    cases hf : fs.pidsCurrent c.name with
    | none => rw [hf] at h; cases h
    | some n =>
      rw [hf] at h
      cases h
      rfl

theorem get_percent_ok_cache (fs : CgroupFS) (c c1 : Container) (v total : ℚ)
    (h : c.get_percent fs total = .ok (v, c1)) : c1.cachePercent = some v := by
  cases hm : c.cachePercent with
  | some w =>
    rw [get_percent_hit fs c w total hm] at h
    simp only [Except.ok.injEq, Prod.mk.injEq] at h
    obtain ⟨rfl, rfl⟩ := h
    exact hm
  | none =>
    cases hcpu : c.get_cpu fs with
    | error e =>
      simp only [Container.get_percent, hm, hcpu] at h
      cases h
    | ok p =>
      obtain ⟨w, c2⟩ := p
      simp only [Container.get_percent, hm, hcpu] at h
      split at h
      · cases h
      · simp only [Except.ok.injEq, Prod.mk.injEq] at h
        obtain ⟨rfl, rfl⟩ := h
        rfl

/-! Concrete first-fetch evaluations on `fsAB`, shared by several witnesses. -/

theorem fsAB_mem_a : (Container.mk0 "a").get_memory fsAB =
    .ok (2, { Container.mk0 "a" with cacheMemory := some 2 }) := by
  have h := get_memory_miss fsAB (Container.mk0 "a") 2097152 rfl rfl
  norm_num [pyRound2, roundHalfEven] at h
  exact h

theorem fsAB_cpu_a : (Container.mk0 "a").get_cpu fsAB =
    .ok (2, { Container.mk0 "a" with cacheCpu := some 2 }) := by
  have h := get_cpu_miss fsAB (Container.mk0 "a") 2000000000 rfl rfl
  norm_num [pyRound2, roundHalfEven] at h
  exact h

theorem fsAB_cpu_b : (Container.mk0 "b").get_cpu fsAB =
    .ok (8, { Container.mk0 "b" with cacheCpu := some 8 }) := by
  have h := get_cpu_miss fsAB (Container.mk0 "b") 8000000000 rfl rfl
  norm_num [pyRound2, roundHalfEven] at h
  exact h

theorem fsAB_procs_a : (Container.mk0 "a").get_procs fsAB =
    .ok (7, { Container.mk0 "a" with cacheProcs := some 7 }) := by
  exact get_procs_miss fsAB (Container.mk0 "a") 7 rfl rfl

theorem fsAB_percent_a : (Container.mk0 "a").get_percent fsAB 10 =
    .ok (20, { Container.mk0 "a" with cacheCpu := some 2, cachePercent := some 20 }) := by
  have h := get_percent_miss fsAB (Container.mk0 "a")
    ({ Container.mk0 "a" with cacheCpu := some 2 }) 2 10 rfl fsAB_cpu_a (by norm_num)
  norm_num [pyRound2, roundHalfEven] at h
  exact h

/-- C6: for every record whose memory usage file contains the integer `b`,
`memory()` returns `b / 1024 / 1024` rounded to 2 decimals (and caches it);
stated for a record that has not fetched its memory yet. -/
theorem C6_memory_formula (fs : CgroupFS) (c : Container) (b : ℤ)
    (hc : c.cacheMemory = none) (hf : fs.memoryBytes c.name = some b) :
    c.get_memory fs = .ok (pyRound2 ((b : ℚ) / 1024 / 1024),
      { c with cacheMemory := some (pyRound2 ((b : ℚ) / 1024 / 1024)) }) :=
  get_memory_miss fs c b hc hf

/-- Witness for C6 at the spec's example content 2097152: memory() = 2.00 MB. -/
theorem C6_memory_formula_witness :
    (Container.mk0 "w6").get_memory ⟨fun _ => some 2097152, fun _ => none, fun _ => none⟩ =
      .ok (2, { Container.mk0 "w6" with cacheMemory := some 2 }) := by
  have h := C6_memory_formula ⟨fun _ => some 2097152, fun _ => none, fun _ => none⟩
    (Container.mk0 "w6") 2097152 rfl rfl
  norm_num [pyRound2, roundHalfEven] at h
  exact h

/-- C7: for every record whose cpuacct usage file contains the integer `n`,
`cpu()` returns `n / 10 ^ 9` rounded to 2 decimals (and caches it); stated
for a record that has not fetched its cpu yet. -/
theorem C7_cpu_formula (fs : CgroupFS) (c : Container) (n : ℤ)
    (hc : c.cacheCpu = none) (hf : fs.cpuNanoseconds c.name = some n) :
    c.get_cpu fs = .ok (pyRound2 ((n : ℚ) / 10 ^ 9),
      { c with cacheCpu := some (pyRound2 ((n : ℚ) / 10 ^ 9)) }) :=
  get_cpu_miss fs c n hc hf

/-- Witness for C7 at the spec's example content 5500000000: cpu() = 5.50 s. -/
theorem C7_cpu_formula_witness :
    (Container.mk0 "w7").get_cpu ⟨fun _ => none, fun _ => some 5500000000, fun _ => none⟩ =
      .ok (11 / 2, { Container.mk0 "w7" with cacheCpu := some (11 / 2) }) := by
  have h := C7_cpu_formula ⟨fun _ => none, fun _ => some 5500000000, fun _ => none⟩
    (Container.mk0 "w7") 5500000000 rfl rfl
  norm_num [pyRound2, roundHalfEven] at h
  exact h

/-- C2: the first invocation of `percent(total)` on a record returns
`cpu() * 100 / total` rounded to 2 decimals (for a total on which the
division is defined; `total = 0` raises instead, see C10). -/
theorem C2_percent_first (fs : CgroupFS) (c c1 : Container) (v total : ℚ)
    (hp : c.cachePercent = none) (hcpu : c.get_cpu fs = .ok (v, c1)) (ht : total ≠ 0) :
    c.get_percent fs total = .ok (pyRound2 (v * 100 / total),
      { c1 with cachePercent := some (pyRound2 (v * 100 / total)) }) :=
  get_percent_miss fs c c1 v total hp hcpu ht

/-- Witness for C2 at the spec's example: cpu() = 2.00, total = 10.00 gives
percent = 20.00. -/
theorem C2_percent_first_witness :
    (Container.mk0 "a").get_percent fsAB 10 =
      .ok (20, { Container.mk0 "a" with cacheCpu := some 2, cachePercent := some 20 }) := by
  have h := C2_percent_first fsAB (Container.mk0 "a")
    ({ Container.mk0 "a" with cacheCpu := some 2 }) 2 10 rfl fsAB_cpu_a (by norm_num)
  norm_num [pyRound2, roundHalfEven] at h
  exact h

/-- C3: the percent cache is keyed independently of `total`: after
`percent(t1)`, a later `percent(t2)` returns the value computed from `t1`,
for any `t2` whatsoever. -/
theorem C3_percent_cache_ignores_total (fs : CgroupFS) (c c1 : Container) (v t1 t2 : ℚ)
    (hp : c.cachePercent = none) (hcpu : c.get_cpu fs = .ok (v, c1)) (h1 : t1 ≠ 0) :
    ∃ c2 : Container,
      c.get_percent fs t1 = .ok (pyRound2 (v * 100 / t1), c2) ∧
      c2.get_percent fs t2 = .ok (pyRound2 (v * 100 / t1), c2) := by
  refine ⟨_, get_percent_miss fs c c1 v t1 hp hcpu h1, ?_⟩
  exact get_percent_hit fs _ _ t2 rfl

/-- Witness for C3: first call with total 10 gives 20.00; a second call with
total 5 still gives 20.00 (not 40.00). -/
theorem C3_percent_cache_ignores_total_witness :
    ∃ c2 : Container,
      (Container.mk0 "a").get_percent fsAB 10 = .ok (20, c2) ∧
      c2.get_percent fsAB 5 = .ok (20, c2) := by
  have h := C3_percent_cache_ignores_total fsAB (Container.mk0 "a")
    ({ Container.mk0 "a" with cacheCpu := some 2 }) 2 10 5 rfl fsAB_cpu_a (by norm_num)
  norm_num [pyRound2, roundHalfEven] at h
  exact h

/-- C8: each metric is fetched at most once per record: after a successful
first fetch, a repeated invocation of the same accessor returns the cached
value and touches no file — it returns the same answer against an arbitrary
second filesystem `fs2`, whatever the files now contain. -/
theorem C8_fetch_once (fs fs2 : CgroupFS) (c : Container) :
    (∀ v c1, c.get_memory fs = .ok (v, c1) → c1.get_memory fs2 = .ok (v, c1)) ∧
    (∀ v c1, c.get_cpu fs = .ok (v, c1) → c1.get_cpu fs2 = .ok (v, c1)) ∧
    (∀ v c1, c.get_procs fs = .ok (v, c1) → c1.get_procs fs2 = .ok (v, c1)) ∧
    (∀ t1 t2 v c1, c.get_percent fs t1 = .ok (v, c1) →
      c1.get_percent fs2 t2 = .ok (v, c1)) := by
  refine ⟨fun v c1 h => ?_, fun v c1 h => ?_, fun v c1 h => ?_, fun t1 t2 v c1 h => ?_⟩
  · exact get_memory_hit fs2 c1 v (get_memory_ok_cache fs c c1 v h)
  · exact get_cpu_hit fs2 c1 v (get_cpu_ok_cache fs c c1 v h)
  · exact get_procs_hit fs2 c1 v (get_procs_ok_cache fs c c1 v h)
  · exact get_percent_hit fs2 c1 v t2 (get_percent_ok_cache fs c c1 v t1 h)

/-- Witness for C8: metrics fetched on `fsAB` are returned unchanged when
re-read against `fsAB2`, whose files all have different contents. -/
theorem C8_fetch_once_witness :
    ({ Container.mk0 "a" with cacheMemory := some 2 } : Container).get_memory fsAB2 =
      .ok (2, { Container.mk0 "a" with cacheMemory := some 2 }) ∧
    ({ Container.mk0 "a" with cacheCpu := some 2 } : Container).get_cpu fsAB2 =
      .ok (2, { Container.mk0 "a" with cacheCpu := some 2 }) ∧
    ({ Container.mk0 "a" with cacheProcs := some 7 } : Container).get_procs fsAB2 =
      .ok (7, { Container.mk0 "a" with cacheProcs := some 7 }) ∧
    ({ Container.mk0 "a" with cacheCpu := some 2, cachePercent := some 20 } :
        Container).get_percent fsAB2 99 =
      .ok (20, { Container.mk0 "a" with cacheCpu := some 2, cachePercent := some 20 }) := by
  refine ⟨?_, ?_, ?_, ?_⟩
  · exact (C8_fetch_once fsAB fsAB2 (Container.mk0 "a")).1 2 _ fsAB_mem_a
  · exact (C8_fetch_once fsAB fsAB2 (Container.mk0 "a")).2.1 2 _ fsAB_cpu_a
  · exact (C8_fetch_once fsAB fsAB2 (Container.mk0 "a")).2.2.1 7 _ fsAB_procs_a
  · exact (C8_fetch_once fsAB fsAB2 (Container.mk0 "a")).2.2.2 10 99 20 _ fsAB_percent_a

/-- C9: a failing directory listing (missing or unreadable discovery path)
makes the Collector constructor fail, so no report can be produced; a
successful listing yields exactly one fresh record per subdirectory, in
listing order. -/
theorem C9_discovery (isDir : String → Bool) :
    Containers.init none isDir = .error .fsError ∧
    ∀ entries : List String, ∃ cs : Containers,
      Containers.init (some entries) isDir = .ok cs ∧
      cs.containers.map Container.name = entries.filter isDir ∧
      ∀ c ∈ cs.containers, c = Container.mk0 c.name := by
  refine ⟨rfl, fun entries => ⟨⟨(entries.filter isDir).map Container.mk0⟩, rfl, ?_, ?_⟩⟩
  · simp [List.map_map, Container.mk0, Function.comp_def]
  · intro c hc
    simp only [List.mem_map] at hc
    obtain ⟨s, _, rfl⟩ := hc
    rfl

/-- Computing `sum(map(lambda c: c.get_cpu, containers))` succeeds exactly
when each fetch succeeds, and the result is the sum of the fetched values. -/
theorem cpuFold_sum (fs : CgroupFS) : ∀ (l l1 : List Container) (s : ℚ),
    cpuFold fs l = .ok (s, l1) →
    ∃ vs : List ℚ,
      List.Forall₂ (fun c v => ∃ c1, c.get_cpu fs = .ok (v, c1)) l vs ∧ s = vs.sum := by
  intro l
  induction l with
  | nil =>
    intro l1 s h
    simp only [cpuFold, Except.ok.injEq, Prod.mk.injEq] at h
    obtain ⟨rfl, rfl⟩ := h
    exact ⟨[], List.Forall₂.nil, rfl⟩
  | cons c cs ih =>
    intro l1 s h
    simp only [cpuFold] at h
    cases hc : c.get_cpu fs with
    | error e => rw [hc] at h; cases h
    | ok p =>
      obtain ⟨v, c1⟩ := p
      rw [hc] at h
      cases hr : cpuFold fs cs with
      | error e => rw [hr] at h; cases h
      | ok q =>
        obtain ⟨s0, cs1⟩ := q
        rw [hr] at h
        simp only [Except.ok.injEq, Prod.mk.injEq] at h
        obtain ⟨rfl, rfl⟩ := h
        obtain ⟨vs, hf, rfl⟩ := ih cs1 s0 hr
        exact ⟨v :: vs, List.Forall₂.cons ⟨c1, hc⟩ hf, by simp⟩

/-- Concrete total on the worked example: 2.00 s + 8.00 s = 10.00 s. -/
theorem fsAB_cpu_usage :
    Containers.cpu_usage fsAB ⟨[Container.mk0 "a", Container.mk0 "b"]⟩ =
      .ok (10, ⟨[{ Container.mk0 "a" with cacheCpu := some 2 },
                 { Container.mk0 "b" with cacheCpu := some 8 }]⟩) := by
  simp only [Containers.cpu_usage, cpuFold, fsAB_cpu_a, fsAB_cpu_b, Except.map]
  norm_num

/-- C4: `totalCpuSeconds()` equals the sum of each record's `cpu()` value —
exactly in the model, hence within the claimed 0.01 tolerance; the empty
collection gives 0. -/
theorem C4_total_cpu (fs : CgroupFS) (cs cs1 : Containers) (s : ℚ)
    (h : cs.cpu_usage fs = .ok (s, cs1)) :
    ∃ vs : List ℚ,
      List.Forall₂ (fun c v => ∃ c1, c.get_cpu fs = .ok (v, c1)) cs.containers vs ∧
      |s - vs.sum| ≤ 1 / 100 := by
  unfold Containers.cpu_usage at h
  cases hr : cpuFold fs cs.containers with
  | error e => rw [hr] at h; cases h
  | ok p =>
    obtain ⟨s0, l1⟩ := p
    rw [hr] at h
    simp only [Except.map, Except.ok.injEq, Prod.mk.injEq] at h
    obtain ⟨rfl, -⟩ := h
    obtain ⟨vs, hf, rfl⟩ := cpuFold_sum fs cs.containers l1 s0 hr
    refine ⟨vs, hf, ?_⟩
    simp only [sub_self, abs_zero]
    norm_num

/-- Witness for C4 on the worked example: total 10.00 for cpus 2.00 and 8.00. -/
theorem C4_total_cpu_witness :
    ∃ vs : List ℚ,
      List.Forall₂ (fun c v => ∃ c1, c.get_cpu fsAB = .ok (v, c1))
        [Container.mk0 "a", Container.mk0 "b"] vs ∧
      |(10 : ℚ) - vs.sum| ≤ 1 / 100 :=
  C4_total_cpu fsAB ⟨[Container.mk0 "a", Container.mk0 "b"]⟩
    ⟨[{ Container.mk0 "a" with cacheCpu := some 2 },
      { Container.mk0 "b" with cacheCpu := some 8 }]⟩ 10 fsAB_cpu_usage

/-- An unrecognized method name makes `sort_by` fall back to the cpu key,
which is also what `sort_by('cpu')` evaluates to. -/
theorem sort_by_invalid_eq_cpu (fs : CgroupFS) (key : String)
    (h1 : key ≠ "name") (h2 : key ≠ "cpu") (h3 : key ≠ "memory")
    (h4 : key ≠ "percent") (h5 : key ≠ "procs") :
    sort_by fs key = sort_by fs "cpu" := by
  funext c
  simp [sort_by, h1, h2, h3, h4, h5]

/-- C5: any sort key outside the five recognized ones produces exactly the
same report as sort key `cpu` (silent fallback, no error). -/
theorem C5_invalid_key_like_cpu (fs : CgroupFS) (cs : Containers) (key : String)
    (h : key ∉ (["name", "cpu", "memory", "percent", "procs"] : List String)) :
    cs.print_stats fs key = cs.print_stats fs "cpu" := by
  simp only [List.mem_cons, List.not_mem_nil, or_false, not_or] at h
  obtain ⟨h1, h2, h3, h4, h5⟩ := h
  have hf := sort_by_invalid_eq_cpu fs key h1 h2 h3 h4 h5
  have hb : (key != "name") = true := bne_iff_ne.mpr h1
  have hb2 : (("cpu" : String) != "name") = true := by decide
  simp only [Containers.print_stats, hf, hb, hb2]

/-- Witness for C5: the key "bogus" reports exactly like "cpu". -/
theorem C5_invalid_key_like_cpu_witness :
    Containers.print_stats fsAB ⟨[Container.mk0 "a", Container.mk0 "b"]⟩ "bogus" =
      Containers.print_stats fsAB ⟨[Container.mk0 "a", Container.mk0 "b"]⟩ "cpu" :=
  C5_invalid_key_like_cpu fsAB ⟨[Container.mk0 "a", Container.mk0 "b"]⟩ "bogus" (by decide)

/-! Generic lemmas about the fallible stable sort. -/

theorem insertE_perm {α : Type} (lt : α → α → Except Err Bool) (x : α) :
    ∀ (ys out : List α), insertE lt x ys = .ok out → out.Perm (x :: ys) := by
  intro ys
  induction ys with
  | nil =>
    intro out h
    simp only [insertE, Except.ok.injEq] at h
    subst h
    exact List.Perm.refl _
  | cons y ys ih =>
    intro out h
    simp only [insertE] at h
    cases hlt : lt y x with
    | error e => rw [hlt] at h; cases h
    | ok b =>
      rw [hlt] at h
      cases b with
      | true =>
        cases hi : insertE lt x ys with
        | error e => rw [hi] at h; cases h
        | ok r =>
          rw [hi] at h
          simp only [Except.map, Except.ok.injEq] at h
          subst h
          exact ((ih r hi).cons y).trans (List.Perm.swap x y ys)
      | false =>
        simp only [Except.ok.injEq] at h
        subst h
        exact List.Perm.refl _

theorem sortE_perm {α : Type} (lt : α → α → Except Err Bool) :
    ∀ (l out : List α), sortE lt l = .ok out → out.Perm l := by
  intro l
  induction l with
  | nil =>
    intro out h
    simp only [sortE, Except.ok.injEq] at h
    subst h
    exact List.Perm.refl _
  | cons x xs ih =>
    intro out h
    simp only [sortE] at h
    cases hs : sortE lt xs with
    | error e => rw [hs] at h; cases h
    | ok r =>
      rw [hs] at h
      exact (insertE_perm lt x r out h).trans ((ih r hs).cons x)

theorem insertE_ok {α : Type} (lt : α → α → Except Err Bool) (x : α) :
    ∀ ys : List α, (∀ y ∈ ys, ∃ b, lt y x = .ok b) →
    ∃ out, insertE lt x ys = .ok out := by
  intro ys
  induction ys with
  | nil => intro _; exact ⟨[x], rfl⟩
  | cons y ys ih =>
    intro h
    obtain ⟨b, hb⟩ := h y (List.mem_cons_self y ys)
    cases b with
    | true =>
      obtain ⟨r, hr⟩ := ih fun z hz => h z (List.mem_cons_of_mem y hz)
      exact ⟨y :: r, by simp only [insertE, hb, hr, Except.map]⟩
    | false => exact ⟨x :: y :: ys, by simp only [insertE, hb]⟩

theorem sortE_ok {α : Type} (lt : α → α → Except Err Bool) :
    ∀ l : List α, (∀ a ∈ l, ∀ b ∈ l, ∃ v, lt a b = .ok v) →
    ∃ out, sortE lt l = .ok out := by
  intro l
  induction l with
  | nil => intro _; exact ⟨[], rfl⟩
  | cons x xs ih =>
    intro h
    obtain ⟨r, hr⟩ := ih fun a ha b hb =>
      h a (List.mem_cons_of_mem x ha) b (List.mem_cons_of_mem x hb)
    have hmem : ∀ y ∈ r, ∃ b, lt y x = .ok b := by
      intro y hy
      have hyxs : y ∈ xs := (sortE_perm lt xs r hr).subset hy
      exact h y (List.mem_cons_of_mem x hyxs) x (List.mem_cons_self x xs)
    obtain ⟨out, ho⟩ := insertE_ok lt x r hmem
    exact ⟨out, by simp only [sortE, hr, ho]⟩

theorem sortedPy_ok_perm {α : Type} (lt : α → α → Except Err Bool) (l : List α) (rev : Bool)
    (h : ∀ a ∈ l, ∀ b ∈ l, ∃ v, lt a b = .ok v) :
    ∃ out, sortedPy lt l rev = .ok out ∧ out.Perm l := by
  cases rev with
  | false =>
    obtain ⟨out, ho⟩ := sortE_ok lt l h
    exact ⟨out, by simp [sortedPy, ho], sortE_perm lt l out ho⟩
  | true =>
    obtain ⟨out, ho⟩ := sortE_ok lt l.reverse fun a ha b hb =>
      h a (List.mem_reverse.mp ha) b (List.mem_reverse.mp hb)
    refine ⟨out.reverse, by simp [sortedPy, ho, Except.map], ?_⟩
    exact ((List.reverse_perm out).trans (sortE_perm lt l.reverse out ho)).trans
      (List.reverse_perm l)

theorem mapKeys_ok (keyf : Container → Except Err (SortKey × Container)) :
    ∀ l : List Container, (∀ c ∈ l, ∃ p, keyf c = .ok p) →
    ∃ out, mapKeys keyf l = .ok out ∧ out.length = l.length ∧
      ∀ p ∈ out, ∃ c ∈ l, keyf c = .ok p := by
  intro l
  induction l with
  | nil => intro _; exact ⟨[], rfl, rfl, by simp⟩
  | cons c cs ih =>
    intro h
    obtain ⟨p, hp⟩ := h c (List.mem_cons_self c cs)
    obtain ⟨r, hr, hlen, hmem⟩ := ih fun d hd => h d (List.mem_cons_of_mem c hd)
    refine ⟨p :: r, by simp only [mapKeys, hp, hr], by simp [hlen], ?_⟩
    intro q hq
    rcases List.mem_cons.mp hq with rfl | hq2
    · exact ⟨c, List.mem_cons_self c cs, hp⟩
    · obtain ⟨d, hd, hkd⟩ := hmem q hq2
      exact ⟨d, List.mem_cons_of_mem c hd, hkd⟩

/-- Two keys of equal runtime tag other than the bound-method tag are
comparable. -/
theorem pyLt_ok (a b : SortKey) (h : tagOf a = tagOf b) (h3 : tagOf a ≠ 3) :
    ∃ v, pyLt a b = .ok v := by
  cases a <;> cases b <;>
    first
      | exact ⟨_, rfl⟩
      | simp [tagOf] at h h3

/-- For every method name other than `percent`, `sort_by` succeeds on a
container whose cpu is already cached (and whose memory and pids files are
readable if not cached), produces a key of the expected runtime tag, and
leaves the percent and cpu caches unchanged. -/
theorem sort_by_ok_facts (fs : CgroupFS) (key : String) (c : Container) (w : ℚ)
    (hkey : key ≠ "percent") (hw : c.cacheCpu = some w)
    (hmem : c.cacheMemory = none → (fs.memoryBytes c.name).isSome)
    (hpid : c.cacheProcs = none → (fs.pidsCurrent c.name).isSome) :
    ∃ k c1, sort_by fs key c = .ok (k, c1) ∧
      tagOf k = (if key = "name" then 0 else 1) ∧
      c1.cachePercent = c.cachePercent ∧ c1.cacheCpu = c.cacheCpu := by
  by_cases h1 : key = "name"
  · subst h1
    exact ⟨.str c.name, c, by simp [sort_by], by simp [tagOf], rfl, rfl⟩
  by_cases h2 : key = "cpu"
  · subst h2
    refine ⟨.num w, c, ?_, by simp [tagOf], rfl, rfl⟩
    simp [sort_by, get_cpu_hit fs c w hw, Except.map]
  by_cases h3 : key = "memory"
  · subst h3
    cases hm : c.cacheMemory with
    | some v =>
      refine ⟨.num v, c, ?_, by simp [tagOf], rfl, rfl⟩
      simp [sort_by, get_memory_hit fs c v hm, Except.map]
    | none =>
      obtain ⟨b, hb⟩ := Option.isSome_iff_exists.mp (hmem hm)
      refine ⟨.num (pyRound2 ((b : ℚ) / 1024 / 1024)),
        { c with cacheMemory := some (pyRound2 ((b : ℚ) / 1024 / 1024)) },
        ?_, by simp [tagOf], rfl, rfl⟩
      simp [sort_by, get_memory_miss fs c b hm hb, Except.map]
  by_cases h5 : key = "procs"
  · subst h5
    cases hq : c.cacheProcs with
    | some v =>
      refine ⟨.int v, c, ?_, by simp [tagOf], rfl, rfl⟩
      simp [sort_by, get_procs_hit fs c v hq, Except.map]
    | none =>
      obtain ⟨n, hn⟩ := Option.isSome_iff_exists.mp (hpid hq)
      refine ⟨.int n, { c with cacheProcs := some n }, ?_, by simp [tagOf], rfl, rfl⟩
      simp [sort_by, get_procs_miss fs c n hq hn, Except.map]
  · refine ⟨.num w, c, ?_, by simp [tagOf, h1], rfl, rfl⟩
    simp [sort_by, h1, h2, h3, hkey, h5, get_cpu_hit fs c w hw, Except.map]

/-- Fetching cpu on a fresh record reads 0.00 s when the file contains 0. -/
theorem fsZero_cpu (nm : String) : (Container.mk0 nm).get_cpu fsZero =
    .ok (0, { Container.mk0 nm with cacheCpu := some 0 }) := by
  have h := get_cpu_miss fsZero (Container.mk0 nm) 0 rfl rfl
  norm_num [pyRound2, roundHalfEven] at h
  exact h

/-- When every cpuacct file reads as 0.00 s, the cpu total over fresh
records is 0 and each record ends with cpu 0 cached. -/
theorem cpuFold_zero (fs : CgroupFS) : ∀ names : List String,
    (∀ n ∈ names, ∃ v : ℤ, fs.cpuNanoseconds n = some v ∧
      pyRound2 ((v : ℚ) / 10 ^ 9) = 0) →
    cpuFold fs (names.map Container.mk0) =
      .ok (0, names.map fun n => { Container.mk0 n with cacheCpu := some 0 }) := by
  intro names
  induction names with
  | nil => intro _; simp [cpuFold]
  | cons n ns ih =>
    intro h
    obtain ⟨v, hv, hz⟩ := h n (List.mem_cons_self n ns)
    have hc := get_cpu_miss fs (Container.mk0 n) v rfl hv
    rw [hz] at hc
    have hr := ih fun m hm => h m (List.mem_cons_of_mem n hm)
    simp only [List.map_cons, cpuFold, hc, hr]
    norm_num

/-- With total 0, producing a row fails at the percent computation with
ZeroDivisionError (for a record whose cpu is cached and percent is not). -/
theorem formatRow_zero_total (fs : CgroupFS) (c : Container) (w : ℚ)
    (hp : c.cachePercent = none) (hc : c.cacheCpu = some w) :
    formatRow fs 0 c = .error .zeroDivision := by
  simp only [formatRow, get_percent_zero fs c c w hp (get_cpu_hit fs c w hc)]

/-- C1: the code bug behind the sorting claim. `get_percent` is the one
accessor that is not a property (it takes the `total` argument), so
`sort_by('percent')` hands `sorted` the bound method object as the key;
comparing two bound methods raises TypeError, so on the two-container
example collection the report aborts instead of ordering rows by percent
descending as the spec promises. -/
theorem C1_percent_sort_type_error :
    Containers.print_stats fsAB ⟨[Container.mk0 "a", Container.mk0 "b"]⟩ "percent" =
      .error .typeError := by
  simp only [Containers.print_stats, fsAB_cpu_usage]
  simp [mapKeys, sort_by, sortedPy, sortE, insertE, pyLt, Except.map]

/-- C10 counterexample: on a non-empty all-zero-cpu collection with sort key
percent (and at least two records) the report aborts with TypeError raised
while sorting, not with the ZeroDivisionError the claim asserts. -/
theorem C10_percent_key_counterexample :
    Containers.print_stats fsZero ⟨["a", "b"].map Container.mk0⟩ "percent" =
      .error .typeError ∧
    (Except.error .typeError : Except Err (List Row)) ≠ .error .zeroDivision := by
  constructor
  · have hfold := cpuFold_zero fsZero ["a", "b"]
      (fun n _ => ⟨0, rfl, by norm_num [pyRound2, roundHalfEven]⟩)
    simp only [List.map_cons, List.map_nil] at hfold
    simp only [List.map_cons, List.map_nil, Containers.print_stats,
      Containers.cpu_usage, hfold, Except.map]
    simp [mapKeys, sort_by, sortedPy, sortE, insertE, pyLt, Except.map]
  · simp

/-- C10 (amended): `percent(0)` — a call with the default total — raises an
unguarded ZeroDivisionError on a first invocation; consequently the report
on a non-empty collection of fresh records whose cpu files all read as 0.00
aborts with ZeroDivisionError for every sort key other than `percent` (for
`percent` with at least two records, sorting aborts first with TypeError). -/
theorem C10_zero_total_aborts :
    (∀ (fs : CgroupFS) (c c1 : Container) (v : ℚ),
      c.cachePercent = none → c.get_cpu fs = .ok (v, c1) →
      c.get_percent fs 0 = .error .zeroDivision) ∧
    (∀ (fs : CgroupFS) (names : List String) (key : String),
      names ≠ [] → key ≠ "percent" →
      (∀ n ∈ names, ∃ v : ℤ, fs.cpuNanoseconds n = some v ∧
        pyRound2 ((v : ℚ) / 10 ^ 9) = 0) →
      (∀ n ∈ names, (fs.memoryBytes n).isSome) →
      (∀ n ∈ names, (fs.pidsCurrent n).isSome) →
      Containers.print_stats fs ⟨names.map Container.mk0⟩ key =
        .error .zeroDivision) := by
  constructor
  · intro fs c c1 v hp hcpu
    exact get_percent_zero fs c c1 v hp hcpu
  · intro fs names key hne hkey hcpu hmem hpid
    have hfold := cpuFold_zero fs names hcpu
    have hcu : Containers.cpu_usage fs ⟨names.map Container.mk0⟩ =
        .ok (0, ⟨names.map fun n => { Container.mk0 n with cacheCpu := some 0 }⟩) := by
      simp only [Containers.cpu_usage, hfold, Except.map]
    have hl_facts : ∀ c ∈ (names.map fun n =>
        ({ Container.mk0 n with cacheCpu := some 0 } : Container)),
        c.cacheCpu = some 0 ∧ c.cachePercent = none ∧
        (fs.memoryBytes c.name).isSome ∧ (fs.pidsCurrent c.name).isSome := by
      intro c hc
      obtain ⟨n, hn, rfl⟩ := List.mem_map.mp hc
      exact ⟨rfl, rfl, hmem n hn, hpid n hn⟩
    have hkf : ∀ c ∈ (names.map fun n =>
        ({ Container.mk0 n with cacheCpu := some 0 } : Container)),
        ∃ p, sort_by fs key c = .ok p := by
      intro c hc
      obtain ⟨h0, -, hm0, hq0⟩ := hl_facts c hc
      obtain ⟨k, c1, hk, -, -, -⟩ := sort_by_ok_facts fs key c 0 hkey h0
        (fun _ => hm0) (fun _ => hq0)
      exact ⟨(k, c1), hk⟩
    obtain ⟨out, hmk, hlen, hout⟩ := mapKeys_ok (sort_by fs key) _ hkf
    have hout_facts : ∀ p ∈ out, tagOf p.1 = (if key = "name" then 0 else 1) ∧
        p.2.cachePercent = none ∧ p.2.cacheCpu = some 0 := by
      intro p hp
      obtain ⟨c, hc, hkc⟩ := hout p hp
      obtain ⟨h0, hpn, hm0, hq0⟩ := hl_facts c hc
      obtain ⟨k, c1, hk, htag, hpc, hcc⟩ := sort_by_ok_facts fs key c 0 hkey h0
        (fun _ => hm0) (fun _ => hq0)
      obtain ⟨pk, pc⟩ := p
      have he := hk.symm.trans hkc
      simp only [Except.ok.injEq, Prod.mk.injEq] at he
      obtain ⟨rfl, rfl⟩ := he
      exact ⟨htag, hpc.trans hpn, hcc.trans h0⟩
    have hcomp : ∀ a ∈ out, ∀ b ∈ out, ∃ v, pyLt a.1 b.1 = .ok v := by
      intro a ha b hb
      refine pyLt_ok a.1 b.1 ?_ ?_
      · rw [(hout_facts a ha).1, (hout_facts b hb).1]
      · rw [(hout_facts a ha).1]
        split <;> omega
    obtain ⟨sorted, hs, hperm⟩ :=
      sortedPy_ok_perm (fun a b => pyLt a.1 b.1) out (key != "name") hcomp
    cases sorted with
    | nil =>
      exfalso
      have hlz : out.length = 0 := by rw [← hperm.length_eq]; rfl
      rw [hlen] at hlz
      simp only [List.length_map, List.length_eq_zero] at hlz
      exact hne hlz
    | cons p rest =>
      have hpmem : p ∈ out := hperm.subset (List.mem_cons_self p rest)
      obtain ⟨-, hpp, hpc⟩ := hout_facts p hpmem
      simp only [Containers.print_stats, hcu, hmk, hs, List.map_cons, rowsOf,
        formatRow_zero_total fs p.2 0 hpp hpc]

/-- Witness for C10: a fresh record raises ZeroDivisionError on percent(0),
and the report over two all-zero-cpu containers sorted by cpu aborts with
ZeroDivisionError. -/
theorem C10_zero_total_aborts_witness :
    (Container.mk0 "x").get_percent fsZero 0 = .error .zeroDivision ∧
    Containers.print_stats fsZero ⟨["a", "b"].map Container.mk0⟩ "cpu" =
      .error .zeroDivision := by
  constructor
  · exact C10_zero_total_aborts.1 fsZero (Container.mk0 "x")
      ({ Container.mk0 "x" with cacheCpu := some 0 }) 0 rfl (fsZero_cpu "x")
  · refine C10_zero_total_aborts.2 fsZero ["a", "b"] "cpu" (by decide) (by decide)
      ?_ ?_ ?_
    · exact fun n _ => ⟨0, rfl, by norm_num [pyRound2, roundHalfEven]⟩
    · exact fun n _ => rfl
    · exact fun n _ => rfl

end LxcStat
